import Mathlib

/-!
Shallow embedding of `unet/decoding.py` (the decoding path of a U-Net):
the `Decoder` and `DecodingBlock` construction logic, the `center_crop`
spatial-alignment algorithm, and the upsampling-layer factories.

Tensors are modelled at the shape level (a shape is the list of extents,
batch axis first, channel axis at index 1, then spatial axes), which is
what the claims about cropping, padding and concatenation are about.
Fallible torch operations return `Except String`.
-/

namespace UNet

/-- Constant `CHANNELS_DIMENSION = 1` in `decoding.py`. -/
def CHANNELS_DIMENSION : Nat := 1

/-- A tensor shape: extent of every axis, batch axis first. -/
abbrev Shape := List Nat

/-- Split a flat pad descriptor into (leading, trailing) pairs:
`[a, b, c, d, ...] ↦ [(a, b), (c, d), ...]`.  `torch.nn.functional.pad`
reads its pad argument in such pairs, the FIRST pair applying to the
LAST axis of the tensor. -/
def padPairs : List Int → List (Int × Int)
  | a :: b :: rest => (a, b) :: padPairs rest
  | _ => []

/-- Apply pad pairs to a reversed shape: pair `j` adjusts the axis at
reverse index `j`; axes beyond the pad pairs are unchanged. -/
def applyPadPairs : List Nat → List (Int × Int) → List Int
  | dims, [] => dims.map Int.ofNat
  | [], _ => []
  | d :: dims, (a, b) :: ps => ((d : Int) + a + b) :: applyPadPairs dims ps

/-- Shape-level model of `torch.nn.functional.pad(input, pad)` with
constant mode: the pad list holds (leading, trailing) amounts, last axis
first; negative amounts crop.  Fails when the pad list has odd length or
names more axes than the tensor has, or when a resulting extent would be
negative (PyTorch raises in that case). -/
def F_pad (shape : Shape) (pad : List Int) : Except String Shape :=
  if pad.length % 2 ≠ 0 then
    Except.error "RuntimeError: pad length must be even"
  else if shape.length * 2 < pad.length then
    Except.error "RuntimeError: pad names more axes than the input has"
  else
    let newRev := applyPadPairs shape.reverse (padPairs pad)
    if newRev.any (fun v => v < 0) then
      Except.error "RuntimeError: negative resulting extent"
    else
      Except.ok (newRev.reverse.map Int.toNat)

/-- The pad descriptor computed inside `DecodingBlock.center_crop`:
`crop = skip_shape[2:] - x_shape[2:]`, `half_crop = crop // 2` (Python
floor division, hence `Int.fdiv`), and
`pad = -torch.stack((half_crop, half_crop)).t().flatten()`, i.e. the
negated half-crops interleaved in axis order, first spatial axis first. -/
def center_crop_pad (skip_shape x_shape : Shape) : List Int :=
  let crop : List Int :=
    List.zipWith (fun a b => (a : Int) - (b : Int)) (skip_shape.drop 2) (x_shape.drop 2)
  let half_crop : List Int := crop.map (fun c => Int.fdiv c 2)
  (half_crop.map (fun h => [-h, -h])).flatten

/-- Shape-level model of `DecodingBlock.center_crop(skip_connection, x)`:
computes the pad descriptor and hands it to `F.pad`.  The tensor
subtraction `skip_shape[2:] - x_shape[2:]` requires both tensors to have
the same number of axes (broadcasting is not exercised by this module). -/
def center_crop (skip_shape x_shape : Shape) : Except String Shape :=
  if skip_shape.length ≠ x_shape.length then
    Except.error "RuntimeError: shape rank mismatch"
  else
    F_pad skip_shape (center_crop_pad skip_shape x_shape)

/-- Shape-level model of `torch.cat((a, b), dim)`: both tensors must have
the same rank and agree on every axis except `dim`, which is summed. -/
def torch_cat (a b : Shape) (dim : Nat) : Except String Shape :=
  if a.length ≠ b.length then
    Except.error "RuntimeError: tensors must have same number of dimensions"
  else if a.length ≤ dim then
    Except.error "IndexError: dimension out of range"
  else if (List.range a.length).all (fun i => i = dim ∨ a.getD i 0 = b.getD i 0) then
    Except.ok (a.set dim (a.getD dim 0 + b.getD dim 0))
  else
    Except.error "RuntimeError: sizes of tensors must match except in the cat dimension"

/-- The crop-then-concatenate fragment of `DecodingBlock.forward`
(lines `skip_connection = self.center_crop(skip_connection, x)` and
`x = torch.cat((skip_connection, x), dim=CHANNELS_DIMENSION)`), at the
shape level, with `x_shape` the shape of the already-upsampled `x`. -/
def crop_concat (skip_shape x_shape : Shape) : Except String Shape := do
  let cropped ← center_crop skip_shape x_shape
  torch_cat cropped x_shape CHANNELS_DIMENSION

/-- A Python value, as far as the call protocol modelled below needs it. -/
inductive PyVal where
  | int (n : Int)
  | str (s : String)
deriving Repr, DecidableEq

/-- What an upsampling component is, structurally: either a learned
`ConvTranspose{N}d` layer or the stateless
`lambda x: F.interpolate(x, scale_factor=2, mode=upsampling_type)`
closure returned by `get_upsampling_layer` (the captured mode is kept as
the `PyVal` that was passed, since Python does not check the
annotation). -/
inductive Upsampler where
  | convTranspose (dimensions in_channels out_channels kernel_size stride : Nat)
  | interpolate (scale_factor : Nat) (mode : PyVal)
deriving Repr, DecidableEq

/-- Source `get_upsampling_layer(upsampling_type)`: returns the interpolation
closure with `scale_factor=2` and the named mode. -/
def get_upsampling_layer (upsampling_type : PyVal) : Upsampler :=
  Upsampler.interpolate 2 upsampling_type

/-- Python call protocol for `get_upsampling_layer`: the `def` has
exactly one positional parameter, so calling it with any other number of
positional arguments raises `TypeError`. -/
def call_get_upsampling_layer (args : List PyVal) : Except String Upsampler :=
  match args with
  | [t] => Except.ok (get_upsampling_layer t)
  | _ => Except.error
      "TypeError: get_upsampling_layer() takes 1 positional argument but 2 were given"

/-- Source `get_conv_transpose_layer(dimensions, in_channels, out_channels)`:
`getattr(nn, f'ConvTranspose{dimensions}d')` resolves only for
dimensions 1, 2 and 3, then builds the layer with `kernel_size=2`,
`stride=2`. -/
def get_conv_transpose_layer (dimensions in_channels out_channels : Nat) :
    Except String Upsampler :=
  if dimensions = 1 ∨ dimensions = 2 ∨ dimensions = 3 then
    Except.ok (Upsampler.convTranspose dimensions in_channels out_channels 2 2)
  else
    Except.error "AttributeError: module torch.nn has no such ConvTranspose attribute"

/-- The argument record of one `ConvolutionalBlock(...)` call site.
`ConvolutionalBlock` itself lives in `conv.py` (an external collaborator
of this module); what the claims are about is which arguments
`decoding.py` passes.  An outer `none` means the keyword was NOT passed,
so the block uses `ConvolutionalBlock`'s own default for it. -/
structure ConvBlockArgs where
  dimensions : Nat
  in_channels : Nat
  out_channels : Nat
  kernel_size : Option Nat
  normalization : Option (Option String)
  preactivation : Option Bool
  padding : Option Bool
  padding_mode : Option String
  activation : Option (Option String)
  dilation : Option (Option Int)
deriving Repr, DecidableEq

/-- The components a `DecodingBlock.__init__` call builds. -/
structure DecodingBlockParts where
  residual : Bool
  upsample : Upsampler
  conv1 : ConvBlockArgs
  conv2 : ConvBlockArgs
  conv_residual : Option ConvBlockArgs
deriving Repr, DecidableEq

namespace DecodingBlock

/-- Source `DecodingBlock.__init__`, statement by statement.  Note that the
non-`'conv'` branch of the source calls
`get_upsampling_layer(dimensions, upsampling_type)` with TWO positional
arguments although the `def` takes one, which is a `TypeError` at
construction time. -/
def init (in_channels_skip_connection dimensions : Nat)
    (upsampling_type : String) (normalization : Option String)
    (preactivation : Bool) (residual : Bool) (padding : Bool)
    (padding_mode : String) (activation : Option String)
    (dilation : Option Int) : Except String DecodingBlockParts := do
  let upsample ←
    if upsampling_type = "conv" then
      get_conv_transpose_layer dimensions
        (2 * in_channels_skip_connection) (2 * in_channels_skip_connection)
    else
      call_get_upsampling_layer [PyVal.int dimensions, PyVal.str upsampling_type]
  let in_channels_first := in_channels_skip_connection * (1 + 2)
  let out_channels := in_channels_skip_connection
  let conv1 : ConvBlockArgs :=
    { dimensions := dimensions
      in_channels := in_channels_first
      out_channels := out_channels
      kernel_size := none
      normalization := some normalization
      preactivation := some preactivation
      padding := some padding
      padding_mode := some padding_mode
      activation := some activation
      dilation := some dilation }
  let in_channels_second := out_channels
  let conv2 : ConvBlockArgs :=
    { dimensions := dimensions
      in_channels := in_channels_second
      out_channels := out_channels
      kernel_size := none
      normalization := some normalization
      preactivation := some preactivation
      padding := some padding
      padding_mode := some padding_mode
      activation := some activation
      dilation := some dilation }
  let conv_residual : Option ConvBlockArgs :=
    if residual then
      some
        { dimensions := dimensions
          in_channels := in_channels_first
          out_channels := out_channels
          kernel_size := some 1
          normalization := some none
          preactivation := none
          padding := none
          padding_mode := none
          activation := some none
          dilation := none }
    else none
  Except.ok
    { residual := residual
      upsample := upsample
      conv1 := conv1
      conv2 := conv2
      conv_residual := conv_residual }

/-- The dataflow of `DecodingBlock.forward`, with the tensor operations
abstract: `upsample`, the two convolutional blocks, the optional
residual block, `center_crop`, channel concatenation and elementwise
addition are parameters, and the body mirrors the source statement by
statement (including the in-place `x += connection`). -/
def forwardAbs {T : Type} (residual : Bool)
    (upsample conv1 conv2 conv_residual : T → T)
    (crop : T → T → T) (cat : T → T → T) (add : T → T → T)
    (skip_connection x : T) : T :=
  let x1 := upsample x
  let skip := crop skip_connection x1
  let x2 := cat skip x1
  if residual then
    let connection := conv_residual x2
    let x3 := conv1 x2
    let x4 := conv2 x3
    add x4 connection
  else
    let x3 := conv1 x2
    conv2 x3

end DecodingBlock

namespace Decoder

/-- The per-stage `(in_channels_skip_connection, dilation)` argument
pairs the `Decoder.__init__` loop passes to `DecodingBlock(...)`: the
loop passes the running values, then halves the channel count
(`//= 2`) and floor-divides the dilation by 2 (`None` stays `None`). -/
def initArgs (in_channels_skip_connection : Nat) (dilation : Option Int) :
    Nat → List (Nat × Option Int)
  | 0 => []
  | n + 1 =>
    (in_channels_skip_connection, dilation) ::
      initArgs (in_channels_skip_connection / 2)
        (dilation.map (fun d => Int.fdiv d 2)) n

/-- Source `Decoder.__init__`: builds one `DecodingBlock` per stage, threading
the channel count and dilation as computed by `initArgs`; a constructor
failure propagates like the Python exception would. -/
def init (in_channels_skip_connection dimensions : Nat)
    (upsampling_type : String) (num_decoding_blocks : Nat)
    (normalization : Option String) (preactivation : Bool)
    (residual : Bool) (padding : Bool) (padding_mode : String)
    (activation : Option String) (initial_dilation : Option Int) :
    Except String (List DecodingBlockParts) :=
  (initArgs in_channels_skip_connection initial_dilation num_decoding_blocks).mapM
    (fun p =>
      DecodingBlock.init p.1 dimensions upsampling_type normalization
        preactivation residual padding padding_mode activation p.2)

/-- Source `Decoder.forward(skip_connections, x)`: zips the REVERSED skip
connection list with the decoding blocks (Python `zip` truncates to the
shorter sequence) and threads `x` through the paired blocks.  Blocks are
abstracted as functions from a skip connection and the running `x` to
the new `x`. -/
def forward {S X : Type} (skip_connections : List S)
    (decoding_blocks : List (S → X → X)) (x : X) : X :=
  (List.zip skip_connections.reverse decoding_blocks).foldl
    (fun x p => p.2 p.1 x) x

/-- Spec-side staged evaluation of the decoder: stage `k + 1` applies
decoding block `k` to the result of the first `k` stages, pairing it
with the skip connection at REVERSE index `k` (so block `0` consumes the
last skip connection); stages whose block or skip connection does not
exist leave the running value unchanged. -/
def decodeStages {S X : Type} (blocks : List (S → X → X)) (skips : List S)
    (x : X) : Nat → X
  | 0 => x
  | k + 1 =>
    match blocks[k]?, skips[skips.length - 1 - k]? with
    | some b, some s => b s (decodeStages blocks skips x k)
    | _, _ => decodeStages blocks skips x k

/-- Positional staged evaluation of a list of (skip, block) pairs:
stage `k + 1` applies pair `k` to the running value. -/
def stagesOf {S X : Type} (l : List (S × (S → X → X))) (x : X) : Nat → X
  | 0 => x
  | k + 1 =>
    match l[k]? with
    | some p => p.2 p.1 (stagesOf l x k)
    | none => stagesOf l x k

theorem stagesOf_append {S X : Type} (l : List (S × (S → X → X)))
    (e : S × (S → X → X)) (x : X) (k : Nat) (hk : k ≤ l.length) :
    stagesOf (l ++ [e]) x k = stagesOf l x k := by
  induction k with
  | zero => rfl
  | succ k ih =>
    have hk' : k < l.length := hk
    simp only [stagesOf, List.getElem?_append_left hk', ih (Nat.le_of_lt hk')]

theorem foldl_eq_stagesOf {S X : Type} (l : List (S × (S → X → X))) (x : X) :
    l.foldl (fun x p => p.2 p.1 x) x = stagesOf l x l.length := by
  induction l using List.reverseRecOn with
  | nil => rfl
  | append_singleton l e ih =>
    rw [List.foldl_append, List.foldl_cons, List.foldl_nil, ih]
    have hlen : (l ++ [e]).length = l.length + 1 := by simp
    rw [hlen]
    simp only [stagesOf, List.getElem?_concat_length]
    rw [stagesOf_append l e x l.length (Nat.le_refl _)]

theorem decodeStages_eq_stagesOf {S X : Type} (blocks : List (S → X → X))
    (skips : List S) (x : X) (k : Nat)
    (hk : k ≤ min skips.length blocks.length) :
    stagesOf (List.zip skips.reverse blocks) x k = decodeStages blocks skips x k := by
  induction k with
  | zero => rfl
  | succ k ih =>
    have hks : k < skips.length := by omega
    have hkb : k < blocks.length := by omega
    obtain ⟨sv, hs⟩ : ∃ sv, skips[skips.length - 1 - k]? = some sv :=
      ⟨_, List.getElem?_eq_getElem (by omega)⟩
    obtain ⟨bv, hb⟩ : ∃ bv, blocks[k]? = some bv :=
      ⟨_, List.getElem?_eq_getElem hkb⟩
    have hz : (List.zip skips.reverse blocks)[k]? = some (sv, bv) := by
      rw [List.getElem?_zip_eq_some]
      exact ⟨by rw [List.getElem?_reverse hks, hs], hb⟩
    simp only [stagesOf, decodeStages, hz, hs, hb]
    rw [ih (by omega)]

/-- Theorem: `Decoder.forward` pairs block `k` with the skip connection at reverse
index `k` and threads the running value through the pairs, for
`min skips.length blocks.length` stages. -/
theorem forward_eq_decodeStages {S X : Type} (skips : List S)
    (blocks : List (S → X → X)) (x : X) :
    Decoder.forward skips blocks x =
      decodeStages blocks skips x (min skips.length blocks.length) := by
  unfold Decoder.forward
  rw [foldl_eq_stagesOf]
  have hlen : (List.zip skips.reverse blocks).length = min skips.length blocks.length := by
    simp [List.length_zip]
  rw [hlen, decodeStages_eq_stagesOf blocks skips x _ (Nat.le_refl _)]

end Decoder

/-- Euclidean division by two positive divisors composes. -/
theorem ediv_ediv_of_pos (a : Int) {m n : Int} (hm : 0 < m) (hn : 0 < n) :
    a / m / n = a / (m * n) := by
  have h1 : a % m + m * (a / m) = a := Int.emod_add_ediv a m
  have h2 : (a / m) % n + n * (a / m / n) = a / m := Int.emod_add_ediv (a / m) n
  have hr1 : 0 ≤ a % m := Int.emod_nonneg a (by omega)
  have hr1' : a % m < m := Int.emod_lt_of_pos a hm
  have hr2 : 0 ≤ (a / m) % n := Int.emod_nonneg _ (by omega)
  have hr2' : (a / m) % n < n := Int.emod_lt_of_pos _ hn
  have key : a / (m * n) = a / m / n := by
    have heq : (a % m + m * ((a / m) % n)) + (m * n) * (a / m / n) = a := by
      nlinarith [h1, h2]
    have hlt : a % m + m * ((a / m) % n) < m * n := by nlinarith
    have hge : 0 ≤ a % m + m * ((a / m) % n) := by nlinarith
    have huniq := Int.ediv_emod_unique (a := a) (b := m * n) (q := a / m / n)
      (r := a % m + m * ((a / m) % n)) (by nlinarith)
    exact (huniq.mpr ⟨heq, hge, hlt⟩).1
  omega

/-- Python floor division (`Int.fdiv`) by two positive divisors composes. -/
theorem fdiv_fdiv_of_pos (a : Int) {m n : Int} (hm : 0 < m) (hn : 0 < n) :
    Int.fdiv (Int.fdiv a m) n = Int.fdiv a (m * n) := by
  rw [Int.fdiv_eq_ediv _ (by omega), Int.fdiv_eq_ediv _ (by omega),
    Int.fdiv_eq_ediv _ (by positivity)]
  exact ediv_ediv_of_pos a hm hn

theorem initArgs_length (c : Nat) (d : Option Int) (n : Nat) :
    (Decoder.initArgs c d n).length = n := by
  induction n generalizing c d with
  | zero => rfl
  | succ n ih => simp [Decoder.initArgs, ih]

theorem initArgs_getD_fst (c : Nat) (d : Option Int) (n k : Nat) (hk : k < n) :
    ((Decoder.initArgs c d n).getD k (0, none)).1 = c / 2 ^ k := by
  induction n generalizing c d k with
  | zero => omega
  | succ n ih =>
    cases k with
    | zero => simp [Decoder.initArgs]
    | succ k =>
      simp only [Decoder.initArgs, List.getD_cons_succ]
      rw [ih _ _ k (by omega), Nat.div_div_eq_div_mul, ← pow_succ']

theorem initArgs_getD_snd_some (c : Nat) (d : Int) (n k : Nat) (hk : k < n) :
    ((Decoder.initArgs c (some d) n).getD k (0, none)).2 =
      some (Int.fdiv d (2 ^ k)) := by
  induction n generalizing c d k with
  | zero => omega
  | succ n ih =>
    cases k with
    | zero => simp [Decoder.initArgs]
    | succ k =>
      simp only [Decoder.initArgs, Option.map_some', List.getD_cons_succ]
      rw [ih _ _ k (by omega), fdiv_fdiv_of_pos d (by omega) (by positivity)]
      rw [← pow_succ']

theorem initArgs_getD_snd_none (c : Nat) (n k : Nat) (hk : k < n) :
    ((Decoder.initArgs c none n).getD k (0, none)).2 = none := by
  induction n generalizing c k with
  | zero => omega
  | succ n ih =>
    cases k with
    | zero => simp [Decoder.initArgs]
    | succ k =>
      simp only [Decoder.initArgs, Option.map_none, List.getD_cons_succ]
      exact ih _ k (by omega)

/-- Mapping with `List.mapM` in the `Except` monad preserves length on success. -/
theorem mapM_ok_length {α β : Type} (f : α → Except String β) :
    ∀ (l : List α) (res : List β), l.mapM f = Except.ok res → res.length = l.length := by
  intro l
  induction l with
  | nil =>
    intro res h
    simp only [List.mapM_nil, pure, Except.pure] at h
    cases h
    rfl
  | cons a l ih =>
    intro res h
    simp only [List.mapM_cons] at h
    cases hfa : f a with
    | error e => rw [hfa] at h; simp [Except.bind, bind] at h
    | ok b =>
      rw [hfa] at h
      cases hml : l.mapM f with
      | error e =>
        rw [hml] at h
        simp [Except.bind, bind] at h
      | ok bs =>
        rw [hml] at h
        simp only [bind, Except.bind, pure, Except.pure, Except.ok.injEq] at h
        subst h
        simp [ih bs hml]

/-- C3: when the skip-connection list has exactly as many elements as
there are decoding blocks, `Decoder.forward` applies every block exactly
once, pairing block `k` with the skip connection at reverse index `k`
(the last skip connection feeds the first block), threading each block's
result into the next, and returns the final result. -/
theorem decoder_forward_reverse_pairing {S X : Type} (skips : List S)
    (blocks : List (S → X → X)) (x : X) (h : skips.length = blocks.length) :
    Decoder.forward skips blocks x =
      Decoder.decodeStages blocks skips x blocks.length := by
  rw [Decoder.forward_eq_decodeStages, h, Nat.min_self]

theorem decoder_forward_reverse_pairing_witness :
    Decoder.forward [1, 2] [fun (s x : Nat) => s + x, fun (s x : Nat) => s * 10 + x] 0 =
      Decoder.decodeStages [fun (s x : Nat) => s + x, fun (s x : Nat) => s * 10 + x]
        [1, 2] 0 2 :=
  decoder_forward_reverse_pairing [1, 2] _ 0 rfl

/-- C7: when the skip-connection list and the decoding-block list have
different lengths, `Decoder.forward` raises nothing: it truncates the
positional pairing to the shorter of the two sequences (Python `zip`
semantics) and returns the result of only that many stages. -/
theorem decoder_forward_length_mismatch_truncates {S X : Type} (skips : List S)
    (blocks : List (S → X → X)) (x : X) (_h : skips.length ≠ blocks.length) :
    Decoder.forward skips blocks x =
      Decoder.decodeStages blocks skips x (min skips.length blocks.length) :=
  Decoder.forward_eq_decodeStages skips blocks x

theorem decoder_forward_length_mismatch_truncates_witness :
    Decoder.forward [5] [fun (s x : Nat) => s + x, fun (s x : Nat) => s * 10 + x] 0 =
      Decoder.decodeStages [fun (s x : Nat) => s + x, fun (s x : Nat) => s * 10 + x]
        [5] 0 (min 1 2) :=
  decoder_forward_length_mismatch_truncates [5] _ 0 (by decide)

/-- C4: a `DecodingBlock` with `residual=True` returns exactly
`conv2(conv1(concat)) + conv_residual(concat)` where `concat` is the
channel concatenation of the cropped skip connection with the upsampled
`x`; with `residual=False` it returns exactly `conv2(conv1(concat))`,
with no residual term. -/
theorem decodingBlock_forward_residual_algebra {T : Type}
    (upsample conv1 conv2 conv_residual : T → T)
    (crop cat : T → T → T) (add : T → T → T) (skip x : T) :
    DecodingBlock.forwardAbs true upsample conv1 conv2 conv_residual crop cat add skip x =
      add (conv2 (conv1 (cat (crop skip (upsample x)) (upsample x))))
        (conv_residual (cat (crop skip (upsample x)) (upsample x))) ∧
    DecodingBlock.forwardAbs false upsample conv1 conv2 conv_residual crop cat add skip x =
      conv2 (conv1 (cat (crop skip (upsample x)) (upsample x))) :=
  ⟨rfl, rfl⟩

/-- C5: for `n ≥ 1` stages and a skip-channel count `c` divisible by
`2^(n-1)`, the `Decoder` constructor issues exactly `n` `DecodingBlock`
constructions (so a successful construction holds `n` blocks), and the
skip-channel argument passed to the block built at stage `k` is
`c / 2^k`. -/
theorem decoder_init_channel_progression (n c k dims : Nat) (mode : String)
    (norm : Option String) (pre res padB : Bool) (padm : String)
    (act : Option String) (d : Option Int) (blocks : List DecodingBlockParts)
    (_hn : 1 ≤ n) (_hdvd : 2 ^ (n - 1) ∣ c) (hk : k < n)
    (hinit : Decoder.init c dims mode n norm pre res padB padm act d =
      Except.ok blocks) :
    (Decoder.initArgs c d n).length = n ∧
    ((Decoder.initArgs c d n).getD k (0, none)).1 = c / 2 ^ k ∧
    blocks.length = n := by
  refine ⟨initArgs_length c d n, initArgs_getD_fst c d n k hk, ?_⟩
  unfold Decoder.init at hinit
  have hlen := mapM_ok_length _ _ _ hinit
  rw [initArgs_length] at hlen
  exact hlen

theorem decoder_init_channel_progression_witness :
    ∃ blocks, Decoder.init 4 2 "conv" 3 none false false false "zeros" none none =
        Except.ok blocks ∧
      ((Decoder.initArgs 4 none 3).length = 3 ∧
       ((Decoder.initArgs 4 none 3).getD 2 (0, none)).1 = 4 / 2 ^ 2 ∧
       blocks.length = 3) :=
  ⟨_, rfl, decoder_init_channel_progression 3 4 2 2 "conv" none false false false
    "zeros" none none _ (by decide) (by decide) (by decide) rfl⟩

/-- C6: the dilation argument passed to the block built at stage `k` is
`d // 2^k` (Python floor division) when `initial_dilation` is the
integer `d`, and `None` at every stage when it is `None`; once the
running dilation reaches `0` it propagates as `0` to all later stages,
with no clamping. -/
theorem decoder_init_dilation_progression (c n k : Nat) (d : Int) (hk : k < n) :
    ((Decoder.initArgs c (some d) n).getD k (0, none)).2 =
      some (Int.fdiv d (2 ^ k)) ∧
    ((Decoder.initArgs c none n).getD k (0, none)).2 = none ∧
    (∀ j, k ≤ j → j < n → Int.fdiv d (2 ^ k) = 0 →
      ((Decoder.initArgs c (some d) n).getD j (0, none)).2 = some 0) := by
  refine ⟨initArgs_getD_snd_some c d n k hk, initArgs_getD_snd_none c n k hk, ?_⟩
  intro j hkj hj h0
  rw [initArgs_getD_snd_some c d n j hj]
  have hsplit : (2 : Int) ^ j = 2 ^ k * 2 ^ (j - k) := by
    rw [← pow_add]
    congr 1
    omega
  rw [hsplit, ← fdiv_fdiv_of_pos d (by positivity) (by positivity), h0]
  simp

theorem decoder_init_dilation_progression_witness :
    ((Decoder.initArgs 4 (some 1) 3).getD 1 (0, none)).2 =
      some (Int.fdiv 1 (2 ^ 1)) ∧
    ((Decoder.initArgs 4 none 3).getD 1 (0, none)).2 = none ∧
    (∀ j, 1 ≤ j → j < 3 → Int.fdiv 1 (2 ^ 1) = 0 →
      ((Decoder.initArgs 4 (some 1) 3).getD j (0, none)).2 = some 0) :=
  decoder_init_dilation_progression 4 3 1 1 (by decide)

/-- C1: evaluating `center_crop` at the example in the source's own
comment (skip spatial shape `(10,20,30)`, upsampled `x` spatial shape
`(6,14,12)`): the computed pad descriptor is `(-2,-2,-3,-3,-9,-9)` with
the FIRST spatial axis's crop in the FIRST pad slot, but `F.pad`
consumes pad pairs last axis first, so the crop amounts land on the
reversed axes and the call fails fatally (the first spatial axis would
get extent `10 - 18 < 0`); the result is NOT a tensor of spatial shape
`(6,14,12)`. -/
theorem center_crop_example_fails :
    center_crop_pad [1, 1, 10, 20, 30] [1, 1, 6, 14, 12] = [-2, -2, -3, -3, -9, -9] ∧
    center_crop [1, 1, 10, 20, 30] [1, 1, 6, 14, 12] =
      Except.error "RuntimeError: negative resulting extent" :=
  ⟨rfl, rfl⟩

/-- C2: for every upsampling mode other than `"conv"`,
`DecodingBlock.__init__` calls `get_upsampling_layer(dimensions,
upsampling_type)` with two positional arguments although that `def`
takes exactly one, so construction raises `TypeError` instead of
succeeding with an interpolation upsampler. -/
theorem decodingBlock_init_nonconv_type_error (c dims : Nat) (mode : String)
    (norm : Option String) (pre res padB : Bool) (padm : String)
    (act : Option String) (dil : Option Int) (h : mode ≠ "conv") :
    DecodingBlock.init c dims mode norm pre res padB padm act dil =
      Except.error
        "TypeError: get_upsampling_layer() takes 1 positional argument but 2 were given" := by
  unfold DecodingBlock.init
  simp [h, call_get_upsampling_layer, Except.bind, bind]

theorem decodingBlock_init_nonconv_type_error_witness :
    DecodingBlock.init 8 2 "nearest" none false false false "zeros" (some "ReLU") none =
      Except.error
        "TypeError: get_upsampling_layer() takes 1 positional argument but 2 were given" :=
  decodingBlock_init_nonconv_type_error 8 2 "nearest" none false false false "zeros"
    (some "ReLU") none (by decide)


theorem center_crop_rank3 (n c s c2 t : Nat) (h : t ≤ s) :
    center_crop [n, c, s] [n, c2, t] = Except.ok [n, c, s - 2 * ((s - t) / 2)] := by
  have hfd : Int.fdiv ((s : Int) - (t : Int)) 2 = (((s - t) / 2 : Nat) : Int) := by
    have h' : (s : Int) - t = ((s - t : Nat) : Int) := by omega
    rw [h', Int.fdiv_eq_ediv _ (by omega)]
    omega
  rw [center_crop, if_neg (by simp)]
  have hpad : center_crop_pad [n, c, s] [n, c2, t] =
      [-(((s - t) / 2 : Nat) : Int), -(((s - t) / 2 : Nat) : Int)] := by
    simp only [center_crop_pad, List.drop, List.zipWith, List.map, List.flatten, hfd]
    simp
  rw [hpad, F_pad]
  rw [if_neg (by simp)]
  rw [if_neg (by simp)]
  simp only [List.reverse, List.reverseAux, padPairs, applyPadPairs]
  rw [if_neg (by simp only [List.any_cons, List.any_nil, List.map, Bool.or_eq_true, decide_eq_true_eq, Bool.or_false, Int.ofNat_eq_coe]; push_neg; exact ⟨by omega, by omega, by omega⟩)]
  refine congrArg Except.ok ?_
  simp only [List.map, List.cons.injEq, and_true, Int.ofNat_eq_coe]
  refine ⟨by omega, by omega, by omega⟩

theorem cat_unequal_spatial (n c c2 t u : Nat) (hu : u ≠ t) :
    torch_cat [n, c, u] [n, c2, t] CHANNELS_DIMENSION =
      Except.error "RuntimeError: sizes of tensors must match except in the cat dimension" := by
  have hcond : ¬(((List.range ([n, c, u] : List Nat).length).all
      (fun i => i = CHANNELS_DIMENSION ∨
        ([n, c, u] : List Nat).getD i 0 = ([n, c2, t] : List Nat).getD i 0)) = true) := by
    simp only [CHANNELS_DIMENSION, List.getD, List.all_eq_true, not_forall]
    refine ⟨2, by simp, ?_⟩
    simp [hu]
  rw [torch_cat, if_neg (by simp), if_neg (by simp [CHANNELS_DIMENSION]), if_neg hcond]

/-- C8: with a single spatial axis of extent `s` on the skip connection
against extent `t` on the upsampled `x`, when the crop amount `s - t` is
odd `center_crop` returns a skip connection of spatial extent
`s - 2*((s - t) / 2)` (one more than `t`), which differs from `t`, and
the subsequent channel-axis concatenation in `DecodingBlock.forward`
fails fatally instead of being silently repaired. -/
theorem center_crop_odd_crop_concat_fails (n c c2 s t : Nat)
    (h1 : t < s) (h2 : (s - t) % 2 = 1) :
    center_crop [n, c, s] [n, c2, t] = Except.ok [n, c, s - 2 * ((s - t) / 2)] ∧
    s - 2 * ((s - t) / 2) ≠ t ∧
    crop_concat [n, c, s] [n, c2, t] =
      Except.error "RuntimeError: sizes of tensors must match except in the cat dimension" := by
  have hcrop := center_crop_rank3 n c s c2 t (Nat.le_of_lt h1)
  have hne : s - 2 * ((s - t) / 2) ≠ t := by omega
  refine ⟨hcrop, hne, ?_⟩
  unfold crop_concat
  rw [hcrop]
  simp only [bind, Except.bind]
  exact cat_unequal_spatial n c c2 t _ hne

theorem center_crop_odd_crop_concat_fails_witness :
    center_crop [1, 1, 11] [1, 2, 6] = Except.ok [1, 1, 11 - 2 * ((11 - 6) / 2)] ∧
    11 - 2 * ((11 - 6) / 2) ≠ 6 ∧
    crop_concat [1, 1, 11] [1, 2, 6] =
      Except.error "RuntimeError: sizes of tensors must match except in the cat dimension" :=
  center_crop_odd_crop_concat_fails 1 1 2 11 6 (by decide) (by decide)

theorem cat_channel_sum (a b r : Shape)
    (hcat : torch_cat a b CHANNELS_DIMENSION = Except.ok r) :
    r.getD CHANNELS_DIMENSION 0 =
      a.getD CHANNELS_DIMENSION 0 + b.getD CHANNELS_DIMENSION 0 := by
  rw [torch_cat] at hcat
  split_ifs at hcat with h1 h2 h3
  injection hcat with hr
  subst hr
  have hlt : CHANNELS_DIMENSION < a.length := by omega
  simp [List.getD, List.get?_eq_getElem?, List.getElem?_set_self, hlt]

/-- C9: in `DecodingBlock.forward` the concatenation along channel axis 1
takes the cropped skip connection first and the upsampled `x` second,
and on success the concatenated channel count is the sum of the two
channel counts; the two convolutional blocks are configured with
`conv1 : 3*c -> c` and `conv2 : c -> c`, so the stage output has exactly
`in_channels_skip_connection` channels. -/
theorem decodingBlock_concat_channel_contract (c dims : Nat) (mode : String)
    (norm : Option String) (pre res padB : Bool) (padm : String)
    (act : Option String) (dil : Option Int) (parts : DecodingBlockParts)
    (h : DecodingBlock.init c dims mode norm pre res padB padm act dil =
      Except.ok parts)
    (skip_shape x_shape r : Shape)
    (hcat : torch_cat skip_shape x_shape CHANNELS_DIMENSION = Except.ok r) :
    crop_concat skip_shape x_shape =
      (center_crop skip_shape x_shape).bind
        (fun cropped => torch_cat cropped x_shape CHANNELS_DIMENSION) ∧
    r.getD CHANNELS_DIMENSION 0 =
      skip_shape.getD CHANNELS_DIMENSION 0 + x_shape.getD CHANNELS_DIMENSION 0 ∧
    parts.conv1.in_channels = 3 * c ∧ parts.conv1.out_channels = c ∧
    parts.conv2.in_channels = c ∧ parts.conv2.out_channels = c := by
  refine ⟨rfl, cat_channel_sum _ _ _ hcat, ?_⟩
  unfold DecodingBlock.init at h
  simp only [bind, Except.bind] at h
  split at h <;> split at h <;>
    first
      | exact Except.noConfusion h
      | (injection h with hp
         subst hp
         exact ⟨by show c * (1 + 2) = 3 * c; ring, rfl, rfl, rfl⟩)

theorem decodingBlock_concat_channel_contract_witness :
    ∃ parts, DecodingBlock.init 4 2 "conv" none false false false "zeros" none none =
        Except.ok parts ∧
      (crop_concat [1, 4, 6] [1, 8, 6] =
        (center_crop [1, 4, 6] [1, 8, 6]).bind
          (fun cropped => torch_cat cropped [1, 8, 6] CHANNELS_DIMENSION) ∧
      ([1, 12, 6] : Shape).getD CHANNELS_DIMENSION 0 =
        ([1, 4, 6] : Shape).getD CHANNELS_DIMENSION 0 +
          ([1, 8, 6] : Shape).getD CHANNELS_DIMENSION 0 ∧
      parts.conv1.in_channels = 3 * 4 ∧ parts.conv1.out_channels = 4 ∧
      parts.conv2.in_channels = 4 ∧ parts.conv2.out_channels = 4) :=
  ⟨_, rfl, decodingBlock_concat_channel_contract 4 2 "conv" none false false false
    "zeros" none none _ rfl [1, 4, 6] [1, 8, 6] [1, 12, 6] rfl⟩

/-- C10: when `residual=True` the residual-path convolutional block is
constructed with only `kernel_size=1`, `normalization=None` and
`activation=None` passed explicitly; the block's own `preactivation`,
`padding`, `padding_mode` and `dilation` arguments are NOT forwarded to
it, so it falls back to `ConvolutionalBlock`'s defaults for those four
settings whatever the main path uses. -/
theorem decodingBlock_residual_uses_defaults (c dims : Nat) (mode : String)
    (norm : Option String) (pre padB : Bool) (padm : String)
    (act : Option String) (dil : Option Int) (parts : DecodingBlockParts)
    (h : DecodingBlock.init c dims mode norm pre true padB padm act dil =
      Except.ok parts) :
    ∃ r, parts.conv_residual = some r ∧
      r.kernel_size = some 1 ∧ r.normalization = some none ∧
      r.activation = some none ∧ r.preactivation = none ∧ r.padding = none ∧
      r.padding_mode = none ∧ r.dilation = none ∧
      r.in_channels = 3 * c ∧ r.out_channels = c := by
  unfold DecodingBlock.init at h
  simp only [bind, Except.bind] at h
  split at h <;> split at h <;>
    first
      | exact Except.noConfusion h
      | (injection h with hp
         subst hp
         exact ⟨_, rfl, rfl, rfl, rfl, rfl, rfl, rfl, rfl,
           by show c * (1 + 2) = 3 * c; ring, rfl⟩)

theorem decodingBlock_residual_uses_defaults_witness :
    ∃ parts, DecodingBlock.init 4 2 "conv" (some "Batch") true true true "replicate"
        (some "ReLU") (some 3) = Except.ok parts ∧
      ∃ r, parts.conv_residual = some r ∧
        r.kernel_size = some 1 ∧ r.normalization = some none ∧
        r.activation = some none ∧ r.preactivation = none ∧ r.padding = none ∧
        r.padding_mode = none ∧ r.dilation = none ∧
        r.in_channels = 3 * 4 ∧ r.out_channels = 4 :=
  ⟨_, rfl, decodingBlock_residual_uses_defaults 4 2 "conv" (some "Batch") true true
    "replicate" (some "ReLU") (some 3) _ rfl⟩

end UNet
